import Mathlib

/-!
Verification of the MovieLens explicit-feedback recommender notebook
(`labs/02_neural_recsys/Explicit_Feedback_Neural_Recommender_System.ipynb`).

The notebook is glue code over numpy / pandas / sklearn / Keras.  We give a
shallow embedding of the cells the claims are about:

* the download/extract guards (cell 1),
* the ratings table and the `train_test_split` call (cells 3 and 10),
* the matrix-factorization model `Merge(mode="dot")` (cell 14),
* the similarity-search helpers (cell 38 and `solutions/similarity.py`),
* the metadata pipeline `parsed_date` / `scaled_date` (cells 5 and 44),
* the hybrid metadata model (cell 46),
* the `recommend` function (cell 50).

Machine floats are modelled as exact rationals (with reals only where a
square root genuinely occurs); numpy arrays and pandas columns as lists;
pandas Series indexed by item id as functions from `ℕ`.
-/

namespace RecSys

/-- One row of the `u.data` ratings file as loaded into `all_ratings`
(cell 3): columns `user_id`, `item_id`, `rating`, `timestamp`. -/
structure RatingRow where
  user_id : ℕ
  item_id : ℕ
  rating : ℤ
  timestamp : ℕ
deriving DecidableEq, Repr

/-- `all_ratings['user_id'].max()` (cell 8). -/
def maxUserId (ratings : List RatingRow) : ℕ :=
  (ratings.map RatingRow.user_id).foldr max 0

/-- `all_ratings['item_id'].max()` (cell 9). -/
def maxItemId (ratings : List RatingRow) : ℕ :=
  (ratings.map RatingRow.item_id).foldr max 0

/-!  ### `np.argsort`

`np.argsort(a)` returns a permutation of the index range of `a` along which
the values of `a` are in non-decreasing order.  We realize it with a stable
insertion sort of the indices, a valid instance of numpy's contract. -/

/-- The comparison used by `argsort`: index `i` comes before index `j`
when the value at `i` is at most the value at `j`. -/
def idxLe (l : List ℚ) (i j : ℕ) : Prop := l.getD i 0 ≤ l.getD j 0

instance (l : List ℚ) : DecidableRel (idxLe l) := fun i j =>
  inferInstanceAs (Decidable (l.getD i 0 ≤ l.getD j 0))

/-- `np.argsort(l)`: the indices `0, …, len l - 1` sorted so that the
corresponding values of `l` are non-decreasing. -/
def argsort (l : List ℚ) : List ℕ :=
  List.insertionSort (idxLe l) (List.range l.length)

theorem argsort_perm (l : List ℚ) : List.Perm (argsort l) (List.range l.length) :=
  List.perm_insertionSort _ _

theorem argsort_length (l : List ℚ) : (argsort l).length = l.length := by
  simpa using (argsort_perm l).length_eq

theorem argsort_mem_lt (l : List ℚ) {i : ℕ} (h : i ∈ argsort l) : i < l.length := by
  have := (argsort_perm l).mem_iff.mp h
  simpa using this

theorem mem_argsort_of_lt (l : List ℚ) {i : ℕ} (h : i < l.length) : i ∈ argsort l := by
  exact (argsort_perm l).mem_iff.mpr (by simpa using h)

theorem argsort_sorted (l : List ℚ) : (argsort l).Sorted (idxLe l) := by
  have htot : IsTotal ℕ (idxLe l) := ⟨fun i j => le_total _ _⟩
  have htrans : IsTrans ℕ (idxLe l) := ⟨fun _ _ _ hij hjk => le_trans hij hjk⟩
  exact List.sorted_insertionSort _ _

/-- Along `argsort l`, the values of `l` are non-decreasing. -/
theorem argsort_values_sorted (l : List ℚ) :
    ((argsort l).map (fun i => l.getD i 0)).Sorted (· ≤ ·) :=
  List.Pairwise.map (fun i => l.getD i 0) (fun _ _ h => h) (argsort_sorted l)

/-- Along the reversed `argsort` (numpy's `[::-1]`), values are
non-increasing. -/
theorem argsort_reverse_values_sorted (l : List ℚ) :
    (((argsort l).reverse).map (fun i => l.getD i 0)).Sorted (fun a b => b ≤ a) := by
  have h := argsort_sorted l
  have hrev : ((argsort l).reverse).Sorted (flip (idxLe l)) :=
    (List.pairwise_reverse).mpr h
  exact List.Pairwise.map (fun i => l.getD i 0) (fun _ _ h => h) hrev

/-- Indices kept by `take k` of a sorted index list have values at most the
values at the dropped indices. -/
theorem sorted_take_le_drop {r : ℕ → ℕ → Prop} {l : List ℕ} (h : l.Pairwise r)
    (k : ℕ) {i j : ℕ} (hi : i ∈ l.take k) (hj : j ∈ l.drop k) : r i j := by
  have h2 : (l.take k ++ l.drop k).Pairwise r := by
    rw [List.take_append_drop]
    exact h
  exact (List.pairwise_append.mp h2).2.2 i hi j hj

/-!  ### The `recommend` function (cell 50)

```python
def recommend(user_id, top_n=10):
    item_ids = range(1, max_item_id)
    seen_movies = list(all_ratings[all_ratings["user_id"]==user_id]["item_id"])
    item_ids = list(filter(lambda x: x not in seen_movies, item_ids))
    item_ids = np.array(item_ids)
    user = np.zeros_like(item_ids); user[:] = user_id
    items_meta = items["scaled_date"][item_ids].values
    rating_preds = model.predict([user, item_ids, items_meta])
    item_ids = np.argsort(rating_preds[:,0])[::-1].tolist()
    rec_items = item_ids[:top_n]
    return [(items["name"][movie], rating_preds[movie][0]) for movie in rec_items]
```

The trained hybrid model is abstracted as `predict : ℕ → ℕ → ℚ → ℚ` taking
`(user_id, item_id, scaled_date)`; the pandas Series `items["name"]` and
`items["scaled_date"]` (both indexed by item id) as functions `ℕ → String`
and `ℕ → ℚ`. -/

/-- `list(all_ratings[all_ratings["user_id"]==user_id]["item_id"])`. -/
def seenMovies (ratings : List RatingRow) (uid : ℕ) : List ℕ :=
  (ratings.filter (fun r => r.user_id = uid)).map RatingRow.item_id

/-- `item_ids = range(1, max_item_id)`: the ids `1, …, max_item_id - 1`. -/
def initialItemIds (mi : ℕ) : List ℕ := List.range' 1 (mi - 1)

/-- `item_ids = list(filter(lambda x: x not in seen_movies, item_ids))`. -/
def candidateIds (ratings : List RatingRow) (uid mi : ℕ) : List ℕ :=
  (initialItemIds mi).filter (fun x => decide (x ∉ seenMovies ratings uid))

/-- `rating_preds = model.predict([user, item_ids, items_meta])`, one
prediction per remaining candidate id. -/
def ratingPreds (predict : ℕ → ℕ → ℚ → ℚ) (sd : ℕ → ℚ)
    (ratings : List RatingRow) (uid mi : ℕ) : List ℚ :=
  (candidateIds ratings uid mi).map (fun i => predict uid i (sd i))

/-- `rec_items = np.argsort(rating_preds[:,0])[::-1].tolist()[:top_n]`.
Note these are *positions* into `rating_preds`, not item ids: the original
`item_ids` array is overwritten by the argsort result. -/
def recPositions (predict : ℕ → ℕ → ℚ → ℚ) (sd : ℕ → ℚ)
    (ratings : List RatingRow) (uid mi top_n : ℕ) : List ℕ :=
  ((argsort (ratingPreds predict sd ratings uid mi)).reverse).take top_n

/-- The full `recommend(user_id, top_n)` body (cell 50). -/
def recommend (predict : ℕ → ℕ → ℚ → ℚ) (name : ℕ → String) (sd : ℕ → ℚ)
    (ratings : List RatingRow) (uid top_n : ℕ) : List (String × ℚ) :=
  let mi := maxItemId ratings
  (recPositions predict sd ratings uid mi top_n).map
    (fun movie => (name movie, (ratingPreds predict sd ratings uid mi).getD movie 0))

theorem getD_of_lt {α : Type _} (l : List α) (p : ℕ) (d : α) (h : p < l.length) :
    l.getD p d = l[p] := by
  simp [List.getD_eq_getElem?_getD, List.getElem?_eq_getElem h]

theorem mem_recPositions_lt (predict : ℕ → ℕ → ℚ → ℚ) (sd : ℕ → ℚ)
    (ratings : List RatingRow) (uid mi top_n : ℕ) {p : ℕ}
    (h : p ∈ recPositions predict sd ratings uid mi top_n) :
    p < (ratingPreds predict sd ratings uid mi).length := by
  have h1 : p ∈ (argsort (ratingPreds predict sd ratings uid mi)).reverse :=
    List.mem_of_mem_take h
  exact argsort_mem_lt _ (List.mem_reverse.mp h1)

/-- Concrete data for counterexamples: user 1 has rated item 2; user 2 has
rated item 5, so `max_item_id = 5` and user 1's unseen candidates among
`range(1, 5)` are `[1, 3, 4]`. -/
def exRatings : List RatingRow := [⟨1, 2, 5, 0⟩, ⟨2, 5, 3, 0⟩]

/-- Concrete item-name table (indexed by item id, as `items["name"]` is). -/
def exName (c : ℕ) : String := if c = 2 then "B" else if c = 4 then "D" else "X"

/-- Concrete `items["scaled_date"]` column. -/
def exSd (_ : ℕ) : ℚ := 0

/-- Concrete trained model: predicted rating grows with the item id, so the
top-ranked prediction is the one for item 4 (at position 2 of the
candidate list `[1, 3, 4]`). -/
def exPredict (_ : ℕ) (i : ℕ) (_ : ℚ) : ℚ :=
  if i = 1 then 1 else if i = 3 then 3 else if i = 4 then 4 else 0

/-- Claim C1 (amended): `recommend(user_id, top_n)` computes a predicted
rating for each remaining candidate item, ranks by non-increasing predicted
rating via the reversed argsort of the prediction vector, and returns at
most `top_n` pairs; but because the candidate-id array is overwritten by
the argsort result, each returned pair carries the predicted rating of the
candidate at some position `p` of the filtered candidate list while its
name is the item-name table indexed at the position `p` itself, not at
that candidate's id. -/
theorem recommend_ranks_by_argsort (predict : ℕ → ℕ → ℚ → ℚ) (name : ℕ → String)
    (sd : ℕ → ℚ) (ratings : List RatingRow) (uid top_n : ℕ) :
    ratingPreds predict sd ratings uid (maxItemId ratings)
        = (candidateIds ratings uid (maxItemId ratings)).map (fun i => predict uid i (sd i)) ∧
    ((recommend predict name sd ratings uid top_n).map Prod.snd).Sorted (fun a b => b ≤ a) ∧
    (recommend predict name sd ratings uid top_n).length ≤ top_n ∧
    ∀ pr ∈ recommend predict name sd ratings uid top_n,
      ∃ p, p < (candidateIds ratings uid (maxItemId ratings)).length ∧
        pr.1 = name p ∧
        pr.2 = predict uid ((candidateIds ratings uid (maxItemId ratings)).getD p 0)
            (sd ((candidateIds ratings uid (maxItemId ratings)).getD p 0)) := by
  refine ⟨rfl, ?_, ?_, ?_⟩
  · have h1 : (recommend predict name sd ratings uid top_n).map Prod.snd
        = ((argsort (ratingPreds predict sd ratings uid (maxItemId ratings))).reverse.take
            top_n).map
          (fun p => (ratingPreds predict sd ratings uid (maxItemId ratings)).getD p 0) := by
      simp only [recommend, recPositions, List.map_map]
      rfl
    rw [h1]
    exact List.Pairwise.sublist
      ((List.take_sublist _ _).map _)
      (argsort_reverse_values_sorted (ratingPreds predict sd ratings uid (maxItemId ratings)))
  · simp only [recommend, recPositions, List.length_map, List.length_take]
    exact min_le_left _ _
  · intro pr hpr
    simp only [recommend, List.mem_map] at hpr
    obtain ⟨m, hm, rfl⟩ := hpr
    have hlt : m < (ratingPreds predict sd ratings uid (maxItemId ratings)).length :=
      mem_recPositions_lt predict sd ratings uid (maxItemId ratings) top_n hm
    have hlen : (ratingPreds predict sd ratings uid (maxItemId ratings)).length
        = (candidateIds ratings uid (maxItemId ratings)).length := by
      simp [ratingPreds]
    refine ⟨m, by omega, rfl, ?_⟩
    have hc : m < (candidateIds ratings uid (maxItemId ratings)).length := by omega
    rw [getD_of_lt _ _ _ hlt, getD_of_lt _ _ _ hc]
    simp [ratingPreds]

/-- Witness for `recommend_ranks_by_argsort` at the concrete data. -/
theorem recommend_ranks_by_argsort_witness :
    (recommend exPredict exName exSd exRatings 1 1).length ≤ 1 :=
  (recommend_ranks_by_argsort exPredict exName exSd exRatings 1 1).2.2.1

/-- Claim C1, as stated, is false: at the concrete input `exRatings` /
`exPredict` with `user_id = 1`, `top_n = 1`, the single returned pair is
`("B", 4)`, yet no candidate item both is named `"B"` and has predicted
rating `4` (the rating `4` belongs to item `4`, named `"D"`). -/
theorem recommend_name_mismatch_counterexample :
    ¬ ∀ pr ∈ recommend exPredict exName exSd exRatings 1 1,
        ∃ c ∈ candidateIds exRatings 1 (maxItemId exRatings),
          pr.1 = exName c ∧ pr.2 = exPredict 1 c (exSd c) := by decide

/-- Claim C8 fails on the code: at the failing input, `recommend` for user
`1` returns the pair `("B", 4)`; `"B"` is the name of item `2`, the item
user `1` has rated (and of no other item), so a returned name is the name
of a seen item. -/
theorem recommend_returns_seen_item_name :
    recommend exPredict exName exSd exRatings 1 1 = [("B", 4)] ∧
    exName 2 = "B" ∧ 2 ∈ seenMovies exRatings 1 ∧
    ∀ c : ℕ, exName c = "B" → c = 2 := by
  refine ⟨by decide, by decide, by decide, ?_⟩
  intro c h
  unfold exName at h
  split_ifs at h with h1 h2
  · exact h1
  · exact absurd h (by decide)
  · exact absurd h (by decide)

/-- Claim C9: the initial candidate list is exactly the item ids
`1 … max_item_id - 1`; `max_item_id` is never among the filtered candidate
ids the model scores (every scored id is `< max_item_id`); and every
returned pair's name is drawn from a table index `p` with
`p + 1 < max_item_id`, so indexing at `max_item_id` never occurs. -/
theorem recommend_never_touches_max_item (predict : ℕ → ℕ → ℚ → ℚ) (name : ℕ → String)
    (sd : ℕ → ℚ) (ratings : List RatingRow) (uid top_n : ℕ)
    (hmi : 1 ≤ maxItemId ratings) :
    (∀ x, x ∈ initialItemIds (maxItemId ratings) ↔ 1 ≤ x ∧ x ≤ maxItemId ratings - 1) ∧
    (∀ i ∈ candidateIds ratings uid (maxItemId ratings), i < maxItemId ratings) ∧
    maxItemId ratings ∉ candidateIds ratings uid (maxItemId ratings) ∧
    ∀ pr ∈ recommend predict name sd ratings uid top_n,
      ∃ p, p + 1 < maxItemId ratings ∧ pr.1 = name p := by
  have hinit : ∀ x, x ∈ initialItemIds (maxItemId ratings) ↔
      1 ≤ x ∧ x ≤ maxItemId ratings - 1 := by
    intro x
    simp only [initialItemIds, List.mem_range'_1]
    omega
  have hcand : ∀ i ∈ candidateIds ratings uid (maxItemId ratings), i < maxItemId ratings := by
    intro i hi
    have := List.mem_of_mem_filter hi
    have := (hinit i).mp this
    omega
  refine ⟨hinit, hcand, fun hmem => by have := hcand _ hmem; omega, ?_⟩
  intro pr hpr
  simp only [recommend, List.mem_map] at hpr
  obtain ⟨m, hm, rfl⟩ := hpr
  have hlt : m < (ratingPreds predict sd ratings uid (maxItemId ratings)).length :=
    mem_recPositions_lt predict sd ratings uid (maxItemId ratings) top_n hm
  have hlen : (ratingPreds predict sd ratings uid (maxItemId ratings)).length
      ≤ maxItemId ratings - 1 := by
    simp only [ratingPreds, List.length_map]
    calc (candidateIds ratings uid (maxItemId ratings)).length
        ≤ (initialItemIds (maxItemId ratings)).length := List.length_filter_le _ _
      _ = maxItemId ratings - 1 := by simp [initialItemIds]
  exact ⟨m, by omega, rfl⟩

/-- Witness for `recommend_never_touches_max_item` at the concrete data. -/
theorem recommend_never_touches_max_item_witness :
    1 ≤ maxItemId exRatings ∧
    ((∀ x, x ∈ initialItemIds (maxItemId exRatings) ↔ 1 ≤ x ∧ x ≤ maxItemId exRatings - 1) ∧
    (∀ i ∈ candidateIds exRatings 1 (maxItemId exRatings), i < maxItemId exRatings) ∧
    maxItemId exRatings ∉ candidateIds exRatings 1 (maxItemId exRatings) ∧
    ∀ pr ∈ recommend exPredict exName exSd exRatings 1 2,
      ∃ p, p + 1 < maxItemId exRatings ∧ pr.1 = exName p) :=
  ⟨by decide, recommend_never_touches_max_item exPredict exName exSd exRatings 1 2 (by decide)⟩

/-!  ### `train_test_split` (cell 10)

`ratings_train, ratings_test = train_test_split(all_ratings, test_size=0.2,
random_state=0)`.  sklearn draws a random permutation of the row indices,
takes the first `ceil(test_size * n)` shuffled rows as the test set and the
remaining rows as the train set.  The permutation drawn from the seeded RNG
is an explicit parameter `perm` here. -/

/-- The rows of `l` reordered along the drawn index permutation `perm`. -/
def shuffleRows {α : Type _} (perm : List ℕ) (l : List α) : List α :=
  perm.filterMap (fun i => l[i]?)

/-- `ceil(0.2 * n)`: sklearn's test-set size for `test_size=0.2`. -/
def nTest (n : ℕ) : ℕ := (n + 4) / 5

/-- `train_test_split(l, test_size=0.2)` = `(train, test)`. -/
def train_test_split {α : Type _} (perm : List ℕ) (l : List α) : List α × List α :=
  ((shuffleRows perm l).drop (nTest l.length), (shuffleRows perm l).take (nTest l.length))

theorem filterMap_getElem_range {α : Type _} (l : List α) :
    (List.range l.length).filterMap (fun i => l[i]?) = l := by
  induction l with
  | nil => simp
  | cons a t ih =>
    rw [List.length_cons, List.range_succ_eq_map, List.filterMap_cons,
      List.filterMap_map]
    simp only [List.getElem?_cons_zero]
    have : (fun i => (a :: t)[i]?) ∘ Nat.succ = fun i => t[i]? := by
      funext i
      simp
    rw [this, ih]

theorem shuffleRows_perm {α : Type _} (perm : List ℕ) (l : List α)
    (hperm : List.Perm perm (List.range l.length)) :
    List.Perm (shuffleRows perm l) l := by
  have h := List.Perm.filterMap (fun i => l[i]?) hperm
  rw [filterMap_getElem_range] at h
  exact h

/-- Claim C4: the split partitions the ratings table: test followed by
train is a permutation of the input (every row lands in exactly one side,
with multiplicity); when the rows are pairwise distinct the two sides are
disjoint; the test side has `ceil(n / 5)` rows and the train side the
rest, which is exactly 20% / 80% whenever `5 ∣ n` (as for the 100000-row
MovieLens table). -/
theorem train_test_split_partitions {α : Type _} (perm : List ℕ) (l : List α)
    (hperm : List.Perm perm (List.range l.length)) :
    List.Perm ((train_test_split perm l).2 ++ (train_test_split perm l).1) l ∧
    (l.Nodup → (train_test_split perm l).2.Disjoint (train_test_split perm l).1) ∧
    (train_test_split perm l).2.length = (l.length + 4) / 5 ∧
    (train_test_split perm l).1.length = l.length - (l.length + 4) / 5 ∧
    (l.length % 5 = 0 →
      5 * (train_test_split perm l).2.length = l.length ∧
      5 * (train_test_split perm l).1.length = 4 * l.length) := by
  have hshuf := shuffleRows_perm perm l hperm
  have hlen : (shuffleRows perm l).length = l.length := hshuf.length_eq
  have hle : nTest l.length ≤ l.length := by
    unfold nTest; omega
  refine ⟨?_, ?_, ?_, ?_, ?_⟩
  · calc (train_test_split perm l).2 ++ (train_test_split perm l).1
        = (shuffleRows perm l).take (nTest l.length)
            ++ (shuffleRows perm l).drop (nTest l.length) := rfl
      _ = shuffleRows perm l := List.take_append_drop _ _
    exact hshuf
  · intro hnd
    have hnd' : (shuffleRows perm l).Nodup := (hshuf.nodup_iff).mpr hnd
    exact List.disjoint_take_drop hnd' le_rfl
  · show ((shuffleRows perm l).take (nTest l.length)).length = (l.length + 4) / 5
    rw [List.length_take, hlen]
    unfold nTest
    omega
  · show ((shuffleRows perm l).drop (nTest l.length)).length
        = l.length - (l.length + 4) / 5
    rw [List.length_drop, hlen]
    unfold nTest
    omega
  · intro h5
    constructor
    · show 5 * ((shuffleRows perm l).take (nTest l.length)).length = l.length
      rw [List.length_take, hlen]
      unfold nTest
      omega
    · show 5 * ((shuffleRows perm l).drop (nTest l.length)).length = 4 * l.length
      rw [List.length_drop, hlen]
      unfold nTest
      omega

/-- Witness for `train_test_split_partitions`: five distinct rows and the
identity permutation. -/
theorem train_test_split_partitions_witness :
    List.Perm [0, 1, 2, 3, 4] (List.range ([10, 11, 12, 13, 14] : List ℕ).length) ∧
    (List.Perm ((train_test_split [0, 1, 2, 3, 4] [10, 11, 12, 13, 14]).2
        ++ (train_test_split [0, 1, 2, 3, 4] [10, 11, 12, 13, 14]).1) [10, 11, 12, 13, 14] ∧
    (([10, 11, 12, 13, 14] : List ℕ).Nodup →
      (train_test_split [0, 1, 2, 3, 4] [10, 11, 12, 13, 14]).2.Disjoint
        (train_test_split [0, 1, 2, 3, 4] [10, 11, 12, 13, 14]).1) ∧
    (train_test_split [0, 1, 2, 3, 4] [10, 11, 12, 13, 14]).2.length
        = (([10, 11, 12, 13, 14] : List ℕ).length + 4) / 5 ∧
    (train_test_split [0, 1, 2, 3, 4] [10, 11, 12, 13, 14]).1.length
        = ([10, 11, 12, 13, 14] : List ℕ).length
          - (([10, 11, 12, 13, 14] : List ℕ).length + 4) / 5 ∧
    (([10, 11, 12, 13, 14] : List ℕ).length % 5 = 0 →
      5 * (train_test_split [0, 1, 2, 3, 4] [10, 11, 12, 13, 14]).2.length
          = ([10, 11, 12, 13, 14] : List ℕ).length ∧
      5 * (train_test_split [0, 1, 2, 3, 4] [10, 11, 12, 13, 14]).1.length
          = 4 * ([10, 11, 12, 13, 14] : List ℕ).length)) :=
  ⟨by decide, train_test_split_partitions [0, 1, 2, 3, 4] [10, 11, 12, 13, 14] (by decide)⟩

/-!  ### Rating bounds (claim C7) -/

/-- Modelled from the spec: the `u.data` ratings file itself is not under
`src/` (it is downloaded at run time), so its content is taken from the
spec's words: explicit feedback is "user-provided ratings (e.g., 1–5
stars)", and the notebook describes each line as carrying "a rating from 1
to 5 stars".  A loaded row is well formed when its integer rating lies in
that range. -/
def ratingWellFormed (r : RatingRow) : Prop := 1 ≤ r.rating ∧ r.rating ≤ 5

instance (r : RatingRow) : Decidable (ratingWellFormed r) :=
  inferInstanceAs (Decidable (_ ∧ _))

/-- Claim C7: when every row of the loaded `all_ratings` table carries an
integer rating between 1 and 5 (the MovieLens format, modelled from the
spec), the same holds of every row of `ratings_train` and `ratings_test`:
the split performs no transformation of the rating field. -/
theorem ratings_bounds_preserved (ratings : List RatingRow) (perm : List ℕ)
    (hperm : List.Perm perm (List.range ratings.length))
    (hwf : ∀ r ∈ ratings, ratingWellFormed r) :
    (∀ r ∈ ratings, 1 ≤ r.rating ∧ r.rating ≤ 5) ∧
    (∀ r ∈ (train_test_split perm ratings).1, 1 ≤ r.rating ∧ r.rating ≤ 5) ∧
    (∀ r ∈ (train_test_split perm ratings).2, 1 ≤ r.rating ∧ r.rating ≤ 5) := by
  have hshuf := shuffleRows_perm perm ratings hperm
  have hmem : ∀ r ∈ shuffleRows perm ratings, ratingWellFormed r := by
    intro r hr
    exact hwf r (hshuf.mem_iff.mp hr)
  refine ⟨hwf, ?_, ?_⟩
  · intro r hr
    exact hmem r (List.Sublist.mem hr (List.drop_sublist _ _))
  · intro r hr
    exact hmem r (List.Sublist.mem hr (List.take_sublist _ _))

/-- Witness for `ratings_bounds_preserved` at a concrete two-row table. -/
theorem ratings_bounds_preserved_witness :
    List.Perm [1, 0] (List.range ([⟨1, 2, 5, 0⟩, ⟨2, 5, 3, 0⟩] : List RatingRow).length) ∧
    (∀ r ∈ ([⟨1, 2, 5, 0⟩, ⟨2, 5, 3, 0⟩] : List RatingRow), ratingWellFormed r) ∧
    ((∀ r ∈ ([⟨1, 2, 5, 0⟩, ⟨2, 5, 3, 0⟩] : List RatingRow),
        1 ≤ r.rating ∧ r.rating ≤ 5) ∧
    (∀ r ∈ (train_test_split [1, 0] ([⟨1, 2, 5, 0⟩, ⟨2, 5, 3, 0⟩] : List RatingRow)).1,
        1 ≤ r.rating ∧ r.rating ≤ 5) ∧
    (∀ r ∈ (train_test_split [1, 0] ([⟨1, 2, 5, 0⟩, ⟨2, 5, 3, 0⟩] : List RatingRow)).2,
        1 ≤ r.rating ∧ r.rating ≤ 5)) :=
  ⟨by decide, by decide,
    ratings_bounds_preserved ([⟨1, 2, 5, 0⟩, ⟨2, 5, 3, 0⟩] : List RatingRow) [1, 0] (by decide) (by decide)⟩

/-!  ### Download / extract guards (cell 1)

```python
if not op.exists(ML_100K_FILENAME):
    urlretrieve(ML_100K_URL, ML_100K_FILENAME)
if not op.exists(ML_100K_FOLDER):
    ZipFile(ML_100K_FILENAME).extractall('.')
```

The working directory is abstracted to the presence and (abstract) content
version of the archive file and of the dataset folder. -/

structure WorkDir where
  archivePresent : Bool
  folderPresent : Bool
  archiveVersion : ℕ
  folderVersion : ℕ
deriving DecidableEq, Repr

/-- `urlretrieve(ML_100K_URL, ML_100K_FILENAME)`: creates / rewrites the
archive file. -/
def downloadArchive (fs : WorkDir) : WorkDir :=
  { fs with archivePresent := true, archiveVersion := fs.archiveVersion + 1 }

/-- `ZipFile(ML_100K_FILENAME).extractall('.')`: creates / rewrites the
dataset folder. -/
def extractArchive (fs : WorkDir) : WorkDir :=
  { fs with folderPresent := true, folderVersion := fs.folderVersion + 1 }

/-- Cell 1's two guarded statements; returns the final directory state with
the number of downloads and of extractions performed. -/
def setupDataset (fs : WorkDir) : WorkDir × ℕ × ℕ :=
  let step1 := if fs.archivePresent then (fs, 0) else (downloadArchive fs, 1)
  let step2 := if step1.1.folderPresent then (step1.1, 0) else (extractArchive step1.1, 1)
  (step2.1, step1.2, step2.2)

/-- Claim C6: the archive is downloaded exactly when it is absent, the
dataset folder is extracted exactly when it is absent, and when both are
already present nothing is downloaded, nothing is extracted, and the
directory state is returned unchanged. -/
theorem setupDataset_guards (fs : WorkDir) :
    ((setupDataset fs).2.1 = 1 ↔ fs.archivePresent = false) ∧
    ((setupDataset fs).2.1 = 0 ↔ fs.archivePresent = true) ∧
    ((setupDataset fs).2.2 = 1 ↔ fs.folderPresent = false) ∧
    ((setupDataset fs).2.2 = 0 ↔ fs.folderPresent = true) ∧
    (fs.archivePresent = true → fs.folderPresent = true →
      setupDataset fs = (fs, 0, 0)) := by
  cases ha : fs.archivePresent <;> cases hf : fs.folderPresent <;>
    simp [setupDataset, downloadArchive, extractArchive, ha, hf]

/-- Witness for `setupDataset_guards` at a concrete directory state. -/
theorem setupDataset_guards_witness :
    (setupDataset ⟨false, false, 0, 0⟩).2.1 = 1 ↔
      (⟨false, false, 0, 0⟩ : WorkDir).archivePresent = false :=
  (setupDataset_guards ⟨false, false, 0, 0⟩).1

/-!  ### The matrix-factorization model (cell 14)

```python
embedding_size = 30
user_embedding = Embedding(output_dim=embedding_size, input_dim=max_user_id + 1,
                           input_length=1)(user_id_input)
item_embedding = Embedding(output_dim=embedding_size, input_dim=max_item_id + 1,
                           input_length=1)(item_id_input)
user_vecs = Flatten()(user_embedding)
item_vecs = Flatten()(item_embedding)
y = Merge(mode="dot")([user_vecs, item_vecs])
```
-/

/-- `embedding_size = 30` (cell 14). -/
def embeddingSize : ℕ := 30

/-- Keras `Embedding(output_dim=d, input_dim=n, input_length=1)` applied to
an integer id: looks up the stored `d`-dimensional weight row of that id,
giving a tensor of shape `(input_length, d) = (1, d)`.  Ids outside the
table are out of the layer's contract and read as `0`. -/
def embeddingLayer (n d : ℕ) (W : Fin n → Fin d → ℚ) (id : ℕ) :
    Fin 1 → Fin d → ℚ :=
  fun _ k => if h : id < n then W ⟨id, h⟩ k else 0

/-- Keras `Flatten()` on a `(1, d)` tensor: the underlying `d`-vector. -/
def flattenOne (d : ℕ) (v : Fin 1 → Fin d → ℚ) : Fin d → ℚ :=
  fun k => v 0 k

/-- Keras `Merge(mode="dot")` on two `d`-vectors. -/
def mergeDot (d : ℕ) (u v : Fin d → ℚ) : ℚ := ∑ k, u k * v k

/-- The matrix-factorization model of cell 14: embedding lookups of the two
ids, flattened and merged with `mode="dot"`. -/
def mfPredict (ratings : List RatingRow)
    (Wu : Fin (maxUserId ratings + 1) → Fin embeddingSize → ℚ)
    (Wi : Fin (maxItemId ratings + 1) → Fin embeddingSize → ℚ)
    (uid iid : ℕ) : ℚ :=
  mergeDot embeddingSize
    (flattenOne embeddingSize (embeddingLayer (maxUserId ratings + 1) embeddingSize Wu uid))
    (flattenOne embeddingSize (embeddingLayer (maxItemId ratings + 1) embeddingSize Wi iid))

/-- Claim C3: for every in-range input pair the matrix-factorization
model's output is exactly the dot product of the 30-dimensional embedding
row stored for `user_id` with the one stored for `item_id`. -/
theorem mfPredict_eq_dot (ratings : List RatingRow)
    (Wu : Fin (maxUserId ratings + 1) → Fin embeddingSize → ℚ)
    (Wi : Fin (maxItemId ratings + 1) → Fin embeddingSize → ℚ)
    (uid iid : ℕ) (hu : uid ≤ maxUserId ratings) (hi : iid ≤ maxItemId ratings) :
    embeddingSize = 30 ∧
    mfPredict ratings Wu Wi uid iid
      = ∑ k : Fin embeddingSize,
          Wu ⟨uid, Nat.lt_succ_of_le hu⟩ k * Wi ⟨iid, Nat.lt_succ_of_le hi⟩ k := by
  refine ⟨rfl, ?_⟩
  unfold mfPredict mergeDot flattenOne embeddingLayer
  have h1 : uid < maxUserId ratings + 1 := Nat.lt_succ_of_le hu
  have h2 : iid < maxItemId ratings + 1 := Nat.lt_succ_of_le hi
  simp [dif_pos h1, dif_pos h2]

/-- Witness for `mfPredict_eq_dot` at concrete weights and ids. -/
theorem mfPredict_eq_dot_witness :
    1 ≤ maxUserId exRatings ∧ 3 ≤ maxItemId exRatings ∧
    (embeddingSize = 30 ∧
      mfPredict exRatings (fun _ _ => 1) (fun _ _ => 2) 1 3
        = ∑ k : Fin embeddingSize,
            (fun (_ : Fin (maxUserId exRatings + 1)) (_ : Fin embeddingSize) => (1 : ℚ))
                ⟨1, Nat.lt_succ_of_le (by decide)⟩ k
              * (fun (_ : Fin (maxItemId exRatings + 1)) (_ : Fin embeddingSize) => (2 : ℚ))
                ⟨3, Nat.lt_succ_of_le (by decide)⟩ k) :=
  ⟨by decide, by decide,
    mfPredict_eq_dot exRatings (fun _ _ => 1) (fun _ _ => 2) 1 3 (by decide) (by decide)⟩

/-!  ### The metadata-augmented hybrid model (cell 46)

```python
embedding_size = 32
user_embedding = Embedding(output_dim=embedding_size, input_dim=max_user_id + 1, ...)
item_embedding = Embedding(output_dim=embedding_size, input_dim=max_item_id + 1, ...)
user_vecs = Flatten()(user_embedding)
item_vecs = Flatten()(item_embedding)
input_vecs = merge([user_vecs, item_vecs, meta_input], mode='concat')
x = Dense(64, activation='relu')(input_vecs)
x = Dropout(0.5)(x)
x = Dense(32, activation='relu')(x)
y = Dense(1)(x)
model = Model(input=[user_id_input, item_id_input, meta_input], output=y)
```
-/

/-- `embedding_size = 32` (cell 46). -/
def hybridEmbeddingSize : ℕ := 32

/-- Width of `input_vecs`: two embeddings plus the one metadata scalar. -/
def concatDim : ℕ := hybridEmbeddingSize + hybridEmbeddingSize + 1

/-- The `relu` activation. -/
def relu (x : ℚ) : ℚ := max x 0

/-- Keras `Dense(n, activation=act)` at inference: affine map then
activation. -/
def dense (m n : ℕ) (W : Fin n → Fin m → ℚ) (b : Fin n → ℚ) (act : ℚ → ℚ)
    (v : Fin m → ℚ) : Fin n → ℚ :=
  fun j => act (b j + ∑ i, W j i * v i)

/-- Keras `Dropout` at inference (prediction) time is the identity. -/
def dropoutEval (m : ℕ) (v : Fin m → ℚ) : Fin m → ℚ := v

/-- `merge([user_vecs, item_vecs, meta_input], mode='concat')`: the user
vector in components `0 … 31`, the item vector in components `32 … 63`, the
metadata scalar in component `64`. -/
def concatUserItemMeta (u v : Fin hybridEmbeddingSize → ℚ) (m : ℚ) :
    Fin concatDim → ℚ :=
  fun j =>
    if h : (j : ℕ) < hybridEmbeddingSize then u ⟨j, h⟩
    else if h2 : (j : ℕ) < hybridEmbeddingSize + hybridEmbeddingSize then
      v ⟨(j : ℕ) - hybridEmbeddingSize, by omega⟩
    else m

/-- The hybrid model of cell 46, a function of exactly three inputs: a user
id, an item id and the metadata scalar. -/
def hybridPredict (ratings : List RatingRow)
    (Wu : Fin (maxUserId ratings + 1) → Fin hybridEmbeddingSize → ℚ)
    (Wi : Fin (maxItemId ratings + 1) → Fin hybridEmbeddingSize → ℚ)
    (W1 : Fin 64 → Fin concatDim → ℚ) (b1 : Fin 64 → ℚ)
    (W2 : Fin 32 → Fin 64 → ℚ) (b2 : Fin 32 → ℚ)
    (W3 : Fin 1 → Fin 32 → ℚ) (b3 : Fin 1 → ℚ)
    (uid iid : ℕ) (meta : ℚ) : ℚ :=
  let user_vecs := flattenOne hybridEmbeddingSize
    (embeddingLayer (maxUserId ratings + 1) hybridEmbeddingSize Wu uid)
  let item_vecs := flattenOne hybridEmbeddingSize
    (embeddingLayer (maxItemId ratings + 1) hybridEmbeddingSize Wi iid)
  let input_vecs := concatUserItemMeta user_vecs item_vecs meta
  let x1 := dense concatDim 64 W1 b1 relu input_vecs
  let x2 := dense 64 32 W2 b2 relu (dropoutEval 64 x1)
  dense 32 1 W3 b3 (fun z => z) x2 0

/-- Claim C5: for in-range ids, the hybrid model's output factors through
its first dense layer applied to the concatenation of the stored user
embedding row, the stored item embedding row and the metadata scalar; and
that concatenation really carries the user embedding in its first 32
components, the item embedding in the next 32 and the metadata scalar
last, so the prediction combines both collaborative-filtering embeddings
with the content-based feature. -/
theorem hybridPredict_concat_structure (ratings : List RatingRow)
    (Wu : Fin (maxUserId ratings + 1) → Fin hybridEmbeddingSize → ℚ)
    (Wi : Fin (maxItemId ratings + 1) → Fin hybridEmbeddingSize → ℚ)
    (W1 : Fin 64 → Fin concatDim → ℚ) (b1 : Fin 64 → ℚ)
    (W2 : Fin 32 → Fin 64 → ℚ) (b2 : Fin 32 → ℚ)
    (W3 : Fin 1 → Fin 32 → ℚ) (b3 : Fin 1 → ℚ)
    (uid iid : ℕ) (meta : ℚ)
    (hu : uid ≤ maxUserId ratings) (hi : iid ≤ maxItemId ratings) :
    hybridPredict ratings Wu Wi W1 b1 W2 b2 W3 b3 uid iid meta
      = dense 32 1 W3 b3 (fun z => z)
          (dense 64 32 W2 b2 relu
            (dense concatDim 64 W1 b1 relu
              (concatUserItemMeta
                (fun k => Wu ⟨uid, Nat.lt_succ_of_le hu⟩ k)
                (fun k => Wi ⟨iid, Nat.lt_succ_of_le hi⟩ k) meta))) 0 ∧
    (∀ u v : Fin hybridEmbeddingSize → ℚ, ∀ m : ℚ, ∀ j : Fin concatDim,
      (∀ h : (j : ℕ) < hybridEmbeddingSize,
        concatUserItemMeta u v m j = u ⟨j, h⟩) ∧
      (∀ h1 : ¬ (j : ℕ) < hybridEmbeddingSize,
        ∀ h2 : (j : ℕ) < hybridEmbeddingSize + hybridEmbeddingSize,
        concatUserItemMeta u v m j = v ⟨(j : ℕ) - hybridEmbeddingSize, by omega⟩) ∧
      (¬ (j : ℕ) < hybridEmbeddingSize + hybridEmbeddingSize →
        concatUserItemMeta u v m j = m)) ∧
    hybridEmbeddingSize = 32 ∧ concatDim = 32 + 32 + 1 := by
  have h1 : uid < maxUserId ratings + 1 := Nat.lt_succ_of_le hu
  have h2 : iid < maxItemId ratings + 1 := Nat.lt_succ_of_le hi
  refine ⟨?_, ?_, rfl, rfl⟩
  · have hvecs1 : flattenOne hybridEmbeddingSize
        (embeddingLayer (maxUserId ratings + 1) hybridEmbeddingSize Wu uid)
        = fun k => Wu ⟨uid, h1⟩ k := by
      funext k
      simp [flattenOne, embeddingLayer, dif_pos h1]
    have hvecs2 : flattenOne hybridEmbeddingSize
        (embeddingLayer (maxItemId ratings + 1) hybridEmbeddingSize Wi iid)
        = fun k => Wi ⟨iid, h2⟩ k := by
      funext k
      simp [flattenOne, embeddingLayer, dif_pos h2]
    simp only [hybridPredict, dropoutEval, hvecs1, hvecs2]
  · intro u v m j
    refine ⟨?_, ?_, ?_⟩
    · intro h
      unfold concatUserItemMeta
      rw [dif_pos h]
    · intro hn h2'
      unfold concatUserItemMeta
      rw [dif_neg hn, dif_pos h2']
    · intro hn2
      have hn : ¬ (j : ℕ) < hybridEmbeddingSize := by
        unfold hybridEmbeddingSize at hn2 ⊢
        omega
      unfold concatUserItemMeta
      rw [dif_neg hn, dif_neg hn2]

/-- Witness for `hybridPredict_concat_structure` at concrete weights. -/
theorem hybridPredict_concat_structure_witness :
    1 ≤ maxUserId exRatings ∧ 3 ≤ maxItemId exRatings ∧
    hybridPredict exRatings (fun _ _ => 1) (fun _ _ => 2) (fun _ _ => 1) (fun _ => 0)
        (fun _ _ => 1) (fun _ => 0) (fun _ _ => 1) (fun _ => 0) 1 3 (1 / 2)
      = dense 32 1 (fun _ _ => 1) (fun _ => 0) (fun z => z)
          (dense 64 32 (fun _ _ => 1) (fun _ => 0) relu
            (dense concatDim 64 (fun _ _ => 1) (fun _ => 0) relu
              (concatUserItemMeta
                (fun k =>
                  (fun (_ : Fin (maxUserId exRatings + 1)) (_ : Fin hybridEmbeddingSize) =>
                    (1 : ℚ)) ⟨1, Nat.lt_succ_of_le (by decide)⟩ k)
                (fun k =>
                  (fun (_ : Fin (maxItemId exRatings + 1)) (_ : Fin hybridEmbeddingSize) =>
                    (2 : ℚ)) ⟨3, Nat.lt_succ_of_le (by decide)⟩ k) (1 / 2)))) 0 :=
  ⟨by decide, by decide,
    (hybridPredict_concat_structure exRatings (fun _ _ => 1) (fun _ _ => 2) (fun _ _ => 1)
      (fun _ => 0) (fun _ _ => 1) (fun _ => 0) (fun _ _ => 1) (fun _ => 0) 1 3 (1 / 2)
      (by decide) (by decide)).1⟩

/-!  ### Item metadata: `parsed_date` and `scaled_date` (cells 5 and 44)

```python
items.fillna(value="01-Jan-1997", inplace=True)            # cell 5
parsed_dates = [int(film_date[-4:])
                for film_date in items["date"].tolist()]   # cell 44
items['scaled_date'] = scale(items['parsed_date'].astype('float64'))
```

Python strings are modelled as lists of characters. -/

/-- A raw row of the `u.item` metadata file (cell 5): the film title and
the release-date string, `none` when the date field is missing in the
file. -/
structure RawItem where
  name : List Char
  date : Option (List Char)
deriving DecidableEq, Repr

/-- The string `"01-Jan-1997"`. -/
def defaultDate : List Char := ['0', '1', '-', 'J', 'a', 'n', '-', '1', '9', '9', '7']

/-- `items.fillna(value="01-Jan-1997", inplace=True)` on the date column:
a missing date becomes `"01-Jan-1997"`. -/
def fillDate (it : RawItem) : List Char := it.date.getD defaultDate

/-- Python `film_date[-4:]`: the last four characters. -/
def lastFour (s : List Char) : List Char := s.drop (s.length - 4)

/-- Python `int(...)` on a non-empty all-digit character string; `none`
models the `ValueError` raised on other inputs (signs, spaces and other
accepted forms do not occur in the date column's last four characters). -/
def pyInt (s : List Char) : Option ℕ :=
  if s ≠ [] ∧ s.all Char.isDigit then
    some (s.foldl (fun acc c => 10 * acc + (c.toNat - 48)) 0)
  else none

/-- `int(film_date[-4:])` for one (already `fillna`-treated) item row. -/
def parsedDate (it : RawItem) : Option ℕ := pyInt (lastFour (fillDate it))

/-- The `parsed_dates` list comprehension of cell 44; `none` when `int()`
raises on some row. -/
def parsedDates : List RawItem → Option (List ℕ)
  | [] => some []
  | it :: rest =>
    match parsedDate it, parsedDates rest with
    | some d, some ds => some (d :: ds)
    | _, _ => none

/-- The mean of a column. -/
def listMean (l : List ℚ) : ℚ := l.sum / l.length

/-- The (population) variance of a column, as `sklearn.preprocessing.scale`
uses it. -/
def listVar (l : List ℚ) : ℚ :=
  (l.map (fun x => (x - listMean l) ^ 2)).sum / l.length

/-- `sklearn.preprocessing.scale(l)`: centre to mean zero, divide by the
standard deviation `σ` (the nonnegative square root of the variance, kept
as an explicit parameter since it is irrational in general). -/
def scaleWith (σ : ℚ) (l : List ℚ) : List ℚ :=
  l.map (fun x => (x - listMean l) / σ)

theorem parsedDates_sound :
    ∀ {items : List RawItem} {ds : List ℕ}, parsedDates items = some ds →
      ds.length = items.length ∧
      ∀ i, ∀ h : i < items.length, ∀ h2 : i < ds.length,
        parsedDate (items.get ⟨i, h⟩) = some (ds.get ⟨i, h2⟩) := by
  intro items
  induction items with
  | nil =>
    intro ds h
    simp only [parsedDates] at h
    cases h
    exact ⟨rfl, by intro i h; simp at h⟩
  | cons it rest ih =>
    intro ds h
    simp only [parsedDates] at h
    cases hpd : parsedDate it with
    | none => rw [hpd] at h; cases h
    | some d =>
      rw [hpd] at h
      cases hr : parsedDates rest with
      | none => rw [hr] at h; cases h
      | some ds' =>
        rw [hr] at h
        cases h
        obtain ⟨hlen, hget⟩ := ih hr
        refine ⟨by simpa using hlen, ?_⟩
        intro i hi hi2
        cases i with
        | zero => simpa using hpd
        | succ n =>
          have hn : n < rest.length := by simpa using hi
          have hn2 : n < ds'.length := by simpa using hi2
          simpa using hget n hn hn2

theorem sum_map_sub_div (μ σ : ℚ) (l : List ℚ) :
    (l.map (fun x => (x - μ) / σ)).sum = (l.sum - l.length * μ) / σ := by
  induction l with
  | nil => simp
  | cons a t ih =>
    simp only [List.map_cons, List.sum_cons, ih, List.length_cons, Nat.cast_succ]
    ring

theorem sum_map_sq_div (μ σ : ℚ) (l : List ℚ) :
    (l.map (fun x => ((x - μ) / σ) ^ 2)).sum
      = (l.map (fun x => (x - μ) ^ 2)).sum / σ ^ 2 := by
  induction l with
  | nil => simp
  | cons a t ih =>
    simp only [List.map_cons, List.sum_cons, ih]
    ring

theorem scaleWith_mean (σ : ℚ) (l : List ℚ) (hn : (l.length : ℚ) ≠ 0) :
    listMean (scaleWith σ l) = 0 := by
  have h1 : (scaleWith σ l).sum = (l.sum - l.length * listMean l) / σ :=
    sum_map_sub_div (listMean l) σ l
  have h2 : l.sum - l.length * listMean l = 0 := by
    unfold listMean
    field_simp
  unfold listMean
  rw [h1, h2]
  simp

theorem scaleWith_var (σ : ℚ) (l : List ℚ) (hσ : σ ≠ 0)
    (hvar : σ ^ 2 = listVar l) (hn : (l.length : ℚ) ≠ 0) :
    listVar (scaleWith σ l) = 1 := by
  have hσ2 : σ ^ 2 ≠ 0 := pow_ne_zero 2 hσ
  unfold listVar
  rw [scaleWith_mean σ l hn]
  simp only [sub_zero]
  have hmm : (scaleWith σ l).map (fun x => x ^ 2)
      = l.map (fun x => ((x - listMean l) / σ) ^ 2) := by
    unfold scaleWith
    rw [List.map_map]
    rfl
  have hlenm : ((scaleWith σ l).length : ℚ) = (l.length : ℚ) := by
    unfold scaleWith
    rw [List.length_map]
  rw [hmm, sum_map_sq_div, hlenm]
  have hS : (l.map (fun x => (x - listMean l) ^ 2)).sum = listVar l * l.length := by
    unfold listVar
    field_simp
  rw [hS, ← hvar]
  field_simp

/-- Claim C10: for every item row, `parsed_date` equals the integer written
in the last four characters of the (`fillna`-treated) date string; a row
whose date field is missing is first assigned `"01-Jan-1997"` and parses to
`1997`; and the `scaled_date` column is the mean-centred,
variance-normalised version of `parsed_date` over all items: each entry is
`(parsed_date - mean) / σ`, its mean is `0` and its variance is `1`. -/
theorem parsed_scaled_dates_spec (items : List RawItem) (ds : List ℕ) (σ : ℚ)
    (hparse : parsedDates items = some ds)
    (hσ : 0 < σ) (hvar : σ ^ 2 = listVar (ds.map (fun d => (d : ℚ)))) :
    (∀ i, ∀ h : i < items.length, ∀ h2 : i < ds.length,
      pyInt (lastFour (fillDate (items.get ⟨i, h⟩))) = some (ds.get ⟨i, h2⟩)) ∧
    (∀ it ∈ items, it.date = none →
      fillDate it = defaultDate ∧ parsedDate it = some 1997) ∧
    scaleWith σ (ds.map (fun d => (d : ℚ)))
      = (ds.map (fun d => (d : ℚ))).map
          (fun x => (x - listMean (ds.map (fun d => (d : ℚ)))) / σ) ∧
    listMean (scaleWith σ (ds.map (fun d => (d : ℚ)))) = 0 ∧
    listVar (scaleWith σ (ds.map (fun d => (d : ℚ)))) = 1 := by
  have hσ0 : σ ≠ 0 := ne_of_gt hσ
  have hn : (((ds.map (fun d => (d : ℚ))).length : ℚ)) ≠ 0 := by
    intro h0
    have hl : (ds.map (fun d => (d : ℚ))).length = 0 := by exact_mod_cast h0
    have hv0 : listVar (ds.map (fun d => (d : ℚ))) = 0 := by
      unfold listVar
      rw [hl]
      simp
    rw [hv0] at hvar
    exact hσ0 ((pow_eq_zero_iff (two_ne_zero)).mp hvar)
  refine ⟨?_, ?_, rfl, scaleWith_mean _ _ hn, scaleWith_var _ _ hσ0 hvar hn⟩
  · exact (parsedDates_sound hparse).2
  · intro it _ hdate
    constructor
    · unfold fillDate
      rw [hdate]
      rfl
    · unfold parsedDate fillDate
      rw [hdate]
      decide

/-- A concrete two-row metadata table for the witness: one item dated
`01-Jan-1995`, one item with the date missing. -/
def witnessItems : List RawItem :=
  [⟨['A'], some ['0', '1', '-', 'J', 'a', 'n', '-', '1', '9', '9', '5']⟩,
   ⟨['B'], none⟩]

/-- Witness for `parsed_scaled_dates_spec`: the parsed dates are
`[1995, 1997]`, whose variance is `1`, so `σ = 1`. -/
theorem parsed_scaled_dates_spec_witness :
    parsedDates witnessItems = some [1995, 1997] ∧
    (0 : ℚ) < 1 ∧
    (1 : ℚ) ^ 2 = listVar (([1995, 1997] : List ℕ).map (fun d => (d : ℚ))) ∧
    ((∀ i, ∀ h : i < witnessItems.length, ∀ h2 : i < ([1995, 1997] : List ℕ).length,
      pyInt (lastFour (fillDate (witnessItems.get ⟨i, h⟩)))
        = some (([1995, 1997] : List ℕ).get ⟨i, h2⟩)) ∧
    (∀ it ∈ witnessItems, it.date = none →
      fillDate it = defaultDate ∧ parsedDate it = some 1997) ∧
    scaleWith 1 (([1995, 1997] : List ℕ).map (fun d => (d : ℚ)))
      = (([1995, 1997] : List ℕ).map (fun d => (d : ℚ))).map
          (fun x => (x - listMean (([1995, 1997] : List ℕ).map (fun d => (d : ℚ)))) / 1) ∧
    listMean (scaleWith 1 (([1995, 1997] : List ℕ).map (fun d => (d : ℚ)))) = 0 ∧
    listVar (scaleWith 1 (([1995, 1997] : List ℕ).map (fun d => (d : ℚ)))) = 1) :=
  ⟨by decide, by norm_num, by norm_num [listVar, listMean],
    parsed_scaled_dates_spec witnessItems [1995, 1997] 1 (by decide) (by norm_num)
      (by norm_num [listVar, listMean])⟩

/-!  ### Embedding similarity search (cell 38 / `solutions/similarity.py`)

Cell 38 of the notebook contains only exercise stubs for `cosine`,
`euclidean_distances` and `most_similar`; the implementations are loaded
from `solutions/similarity.py`, which is not part of this source tree.
The definitions below are therefore modelled from the spec: the euclidean
distance between a point and every item embedding computed via
`np.linalg.norm`, the cosine similarity of two points, and `most_similar`
returning the `top_n` item names of lowest euclidean distance, selected
via `np.argsort` of those distances. -/

/-- `np.dot(x, y)`. -/
def dotList (x y : List ℚ) : ℚ := (List.zipWith (fun a b => a * b) x y).sum

/-- Componentwise difference `x - y` of two equal-length vectors. -/
def subList (x y : List ℚ) : List ℚ := List.zipWith (fun a b => a - b) x y

/-- The squared euclidean norm `‖x‖²` of a vector. -/
def normSq (x : List ℚ) : ℚ := dotList x x

/-- The squared euclidean distances between `x` and every item embedding;
`np.linalg.norm(item_embeddings - x, axis=1)` is the entrywise square root
of this list. -/
def distSq (emb : List (List ℚ)) (x : List ℚ) : List ℚ :=
  emb.map (fun e => normSq (subList e x))

/-- Modelled from the spec: `euclidean_distances(x)` returns the euclidean
distance — `np.linalg.norm` of the difference — between `x` and every item
embedding. -/
noncomputable def euclidean_distances (emb : List (List ℚ)) (x : List ℚ) : List ℝ :=
  emb.map (fun e => Real.sqrt ((normSq (subList e x) : ℚ) : ℝ))

/-- Modelled from the spec: `cosine(x, y)` returns the cosine similarity of
the two points. -/
noncomputable def cosine (x y : List ℚ) : ℝ :=
  ((dotList x y : ℚ) : ℝ)
    / (Real.sqrt ((normSq x : ℚ) : ℝ) * Real.sqrt ((normSq y : ℚ) : ℝ))

/-- Modelled from the spec: `most_similar(idx, top_n)` returns the `top_n`
item names of lowest euclidean distance to item `idx`'s embedding, selected
via `np.argsort` of the distances.  Comparisons of euclidean distances
coincide with comparisons of their squares (`Real.sqrt` is monotone — made
precise in `most_similar_lowest_distance`), so the argsort is taken over
the squared distances to keep the selection computable. -/
def most_similar (emb : List (List ℚ)) (name : ℕ → String) (idx top_n : ℕ) :
    List String :=
  ((argsort (distSq emb (emb.getD idx []))).take top_n).map name

theorem dotList_self_nonneg (x : List ℚ) : 0 ≤ dotList x x := by
  unfold dotList
  induction x with
  | nil => simp
  | cons a t ih =>
    simp only [List.zipWith_cons_cons, List.sum_cons]
    have := mul_self_nonneg a
    linarith

theorem distSq_getD_nonneg (emb : List (List ℚ)) (x : List ℚ) (j : ℕ) :
    0 ≤ (distSq emb x).getD j 0 := by
  rcases lt_or_ge j (distSq emb x).length with h | h
  · rw [getD_of_lt _ _ _ h]
    unfold distSq at h ⊢
    rw [List.getElem_map]
    exact dotList_self_nonneg _
  · rw [List.getD_eq_getElem?_getD, List.getElem?_eq_none (by omega)]
    simp

/-- Claim C2: `euclidean_distances` maps every item embedding to the
euclidean norm of its difference with `x`; `cosine` is the cosine
similarity; `most_similar` returns at most `top_n` item names, obtained by
`np.argsort` selection, and every selected index has euclidean distance to
item `idx`'s embedding at most that of every unselected index — with the
comparison of square-root distances provably the same as the comparison of
the squared distances the argsort uses. -/
theorem most_similar_lowest_distance (emb : List (List ℚ)) (name : ℕ → String)
    (idx top_n : ℕ) :
    euclidean_distances emb (emb.getD idx [])
      = emb.map (fun e => Real.sqrt ((normSq (subList e (emb.getD idx [])) : ℚ) : ℝ)) ∧
    (∀ x y : List ℚ, cosine x y
      = ((dotList x y : ℚ) : ℝ)
          / (Real.sqrt ((normSq x : ℚ) : ℝ) * Real.sqrt ((normSq y : ℚ) : ℝ))) ∧
    most_similar emb name idx top_n
      = ((argsort (distSq emb (emb.getD idx []))).take top_n).map name ∧
    (most_similar emb name idx top_n).length ≤ top_n ∧
    (∀ i j : ℕ,
      (Real.sqrt (((distSq emb (emb.getD idx [])).getD i 0 : ℚ) : ℝ)
          ≤ Real.sqrt (((distSq emb (emb.getD idx [])).getD j 0 : ℚ) : ℝ)
        ↔ (distSq emb (emb.getD idx [])).getD i 0
            ≤ (distSq emb (emb.getD idx [])).getD j 0)) ∧
    ∀ i ∈ (argsort (distSq emb (emb.getD idx []))).take top_n,
      ∀ j < emb.length, j ∉ (argsort (distSq emb (emb.getD idx []))).take top_n →
        Real.sqrt (((distSq emb (emb.getD idx [])).getD i 0 : ℚ) : ℝ)
          ≤ Real.sqrt (((distSq emb (emb.getD idx [])).getD j 0 : ℚ) : ℝ) := by
  refine ⟨rfl, fun x y => rfl, rfl, ?_, ?_, ?_⟩
  · unfold most_similar
    rw [List.length_map, List.length_take]
    exact min_le_left _ _
  · intro i j
    rw [Real.sqrt_le_sqrt_iff (by exact_mod_cast distSq_getD_nonneg emb _ j)]
    exact_mod_cast Iff.rfl
  · intro i hi j hj hjn
    have hjmem : j ∈ argsort (distSq emb (emb.getD idx [])) := by
      apply mem_argsort_of_lt
      unfold distSq
      rw [List.length_map]
      exact hj
    have hsplit : j ∈ (argsort (distSq emb (emb.getD idx []))).take top_n
        ++ (argsort (distSq emb (emb.getD idx []))).drop top_n := by
      rw [List.take_append_drop]
      exact hjmem
    have hjdrop : j ∈ (argsort (distSq emb (emb.getD idx []))).drop top_n := by
      rcases List.mem_append.mp hsplit with h | h
      · exact absurd h hjn
      · exact h
    have hle : idxLe (distSq emb (emb.getD idx [])) i j :=
      sorted_take_le_drop (argsort_sorted _) top_n hi hjdrop
    exact Real.sqrt_le_sqrt (by exact_mod_cast hle)

/-- Witness for `most_similar_lowest_distance` at concrete embeddings. -/
theorem most_similar_lowest_distance_witness :
    (most_similar [[0, 0], [3, 4], [1, 1]] exName 0 2).length ≤ 2 :=
  (most_similar_lowest_distance [[0, 0], [3, 4], [1, 1]] exName 0 2).2.2.2.1

end RecSys
